import Mathlib

/-!
Verification of the `tsbench` query-latency benchmark pipeline
(`main.go`, `channel.go`) against its specification.

The embedding is sequential and list-based: a Go channel becomes the list of
values sent over it (closing the channel corresponds to the end of the list),
and each pipeline stage becomes a function from its input list to its output
list together with the error it returns.  A Go runtime panic (integer divide
by zero, index out of range) is modelled as the `Option` value `none`; a
function that cannot panic returns `some` of its Go result.

Machine integers: `time.Duration` is an `int64` count of nanoseconds; we model
it as unbounded `Int` (the durations handled by the benchmark are far from the
64-bit boundary, so wrap-around is not modelled).  `float64` CPU values are
carried as `Float` but never inspected by any statement here.
-/

namespace Tsbench

/-- A parsed wall-clock time, as produced by Go's
`time.Parse("2006-01-02 15:04:05", s)`: year, month, day, hour, minute,
second (UTC). -/
structure GoTime where
  year : Nat
  month : Nat
  day : Nat
  hour : Nat
  minute : Nat
  second : Nat
deriving DecidableEq, Repr

/-- `query` from main.go: a single parsed query from the input CSV file. -/
structure query where
  hostname : String
  start : GoTime
  «end» : GoTime
deriving DecidableEq, Repr

/-- `queryResult` from main.go.  `queryDuration` is a `time.Duration`
(int64 nanoseconds), modelled as `Int`. -/
structure queryResult where
  minCPU : Float
  maxCPU : Float
  queryDuration : Int

/-- `querySummary` from main.go.  `count` is a Go `int`; the remaining fields
are `time.Duration`s. -/
structure querySummary where
  count : Nat
  sum : Int
  min : Int
  max : Int
  mean : Int
  median : Int
deriving DecidableEq, Repr

/-! ## Timestamp parsing

Model of Go's `time.Parse` with the fixed layout `"2006-01-02 15:04:05"`:
exactly four digits for the year, exactly two digits for the zero-padded
month/day/minute/second layouts, one or two digits for the hour (Go parses
the `15` layout with `getnum(value, false)`, which is non-fixed), the
literal separators `-`, space and `:`, no trailing text, and Go's range
validation (month 1–12, day 1–daysIn(month, year) with leap years,
hour 0–23, minute 0–59, second 0–59). -/

/-- Decimal value of a digit character. -/
def digitVal (c : Char) : Nat := c.toNat - 48

/-- Read exactly two digit characters. -/
def getnum2 : List Char → Option (Nat × List Char)
  | c1 :: c2 :: rest =>
    if c1.isDigit ∧ c2.isDigit then some (digitVal c1 * 10 + digitVal c2, rest)
    else none
  | _ => none

/-- Read one or two digit characters: two when two are present, one when
only the first of the next two characters is a digit (Go's `getnum` with
`fixed = false`). -/
def getnum1or2 : List Char → Option (Nat × List Char)
  | [] => none
  | c1 :: rest =>
    if c1.isDigit then
      match rest with
      | c2 :: rest2 =>
        if c2.isDigit then some (digitVal c1 * 10 + digitVal c2, rest2)
        else some (digitVal c1, rest)
      | [] => some (digitVal c1, [])
    else none

/-- Read exactly four digit characters. -/
def getnum4 : List Char → Option (Nat × List Char)
  | c1 :: c2 :: c3 :: c4 :: rest =>
    if c1.isDigit ∧ c2.isDigit ∧ c3.isDigit ∧ c4.isDigit then
      some (((digitVal c1 * 10 + digitVal c2) * 10 + digitVal c3) * 10 + digitVal c4, rest)
    else none
  | _ => none

/-- Expect the literal character `c`. -/
def expectCh (c : Char) : List Char → Option (List Char)
  | d :: rest => if d = c then some rest else none
  | [] => none

/-- Gregorian leap-year rule, as used by Go's date validation. -/
def isLeap (y : Nat) : Bool := y % 4 = 0 ∧ (y % 100 ≠ 0 ∨ y % 400 = 0)

/-- Number of days in a month, as used by Go's date validation. -/
def daysIn (m y : Nat) : Nat :=
  if m = 2 then (if isLeap y then 29 else 28)
  else if m = 4 ∨ m = 6 ∨ m = 9 ∨ m = 11 then 30
  else 31

/-- Model of `time.Parse("2006-01-02 15:04:05", s)`: `none` is a parse
error. -/
def parseGoTime (s : String) : Option GoTime := do
  let (y, r1) ← getnum4 s.data
  let r2 ← expectCh '-' r1
  let (mo, r3) ← getnum2 r2
  let r4 ← expectCh '-' r3
  let (d, r5) ← getnum2 r4
  let r6 ← expectCh ' ' r5
  let (h, r7) ← getnum1or2 r6
  let r8 ← expectCh ':' r7
  let (mi, r9) ← getnum2 r8
  let r10 ← expectCh ':' r9
  let (sec, r11) ← getnum2 r10
  if r11 = [] ∧ 1 ≤ mo ∧ mo ≤ 12 ∧ 1 ≤ d ∧ d ≤ daysIn mo y ∧
      h ≤ 23 ∧ mi ≤ 59 ∧ sec ≤ 59 then
    some ⟨y, mo, d, h, mi, sec⟩
  else none

/-! ## CSV layer

Model of `encoding/csv.Reader` restricted to the inputs this program deals
with: records without quote characters.  The input is the list of the file's
lines (newline already stripped).  A line splits into fields at every comma;
a completely blank line is not a record and is skipped; the first record read
fixes the expected field count, and any later record with a different number
of fields is a read error (`csv.ErrFieldCount`). -/

/-- Split a line into comma-separated fields (quote-free CSV records). -/
def splitFieldsAux : List Char → List Char → List String
  | [], acc => [String.mk acc.reverse]
  | c :: cs, acc =>
    if c = ',' then String.mk acc.reverse :: splitFieldsAux cs []
    else splitFieldsAux cs (c :: acc)

/-- Fields of one CSV line. -/
def splitFields (s : String) : List String := splitFieldsAux s.data []

/-- Skip the blank lines before the next CSV record (`csv.Reader.Read` does
not return blank lines). -/
def dropBlanks : List String → List String
  | [] => []
  | l :: rest => if l = "" then dropBlanks rest else l :: rest

/-! ## Source stage -/

/-- The errors `newQuery` returns, carrying the exact message text the Go
code formats.  Note that both timestamp error sites in main.go use the label
`"invalid start time"` — also the one for the end field (main.go:171). -/
inductive ParseErr where
  /-- `errors.New("empty hostname")` -/
  | emptyHostname
  /-- `fmt.Errorf("%s: %s: %w", label, value, err)` with `label` the literal
  prefix of the format string. -/
  | invalidTime (label : String) (value : String)
deriving DecidableEq, Repr

/-- The errors `readQueries` returns. -/
inductive SrcError where
  /-- `r.Read()` returned `io.EOF` before any header record. -/
  | eof
  /-- `fmt.Errorf("Unknown input format: %s", strings.Join(header, ", "))` -/
  | unknownFormat (header : List String)
  /-- `csv.ErrFieldCount`: a record had `got` fields where `want` were
  expected. -/
  | fieldCount (want got : Nat)
  /-- `fmt.Errorf("line %d: %w", line, err)` -/
  | row (line : Nat) (e : ParseErr)
deriving DecidableEq, Repr

/-- `newQuery` from main.go: build a `query` from a CSV row.  The Go code
indexes `row[0]`, `row[1]`, `row[2]` without a length check; `none` models
the index-out-of-range panic that a short row would cause. -/
def newQuery (row : List String) : Option (Except ParseErr query) :=
  match row[0]? with
  | none => none
  | some h =>
    if h = "" then some (Except.error ParseErr.emptyHostname)
    else
      match row[1]? with
      | none => none
      | some s1 =>
        match parseGoTime s1 with
        | none => some (Except.error (ParseErr.invalidTime "invalid start time" s1))
        | some t1 =>
          match row[2]? with
          | none => none
          | some s2 =>
            match parseGoTime s2 with
            | none => some (Except.error (ParseErr.invalidTime "invalid start time" s2))
            | some t2 => some (Except.ok ⟨h, t1, t2⟩)

/-- The header check of `readQueries`:
`len(header) != 3 || header[0] != "hostname" || header[1] != "start_time" ||
header[2] != "end_time"` (the short-circuit `||` never indexes a short
header; `Option`-indexing is safe here for the same reason). -/
def headerBad (header : List String) : Bool :=
  header.length ≠ 3 ∨ header[0]? ≠ some "hostname" ∨
    header[1]? ≠ some "start_time" ∨ header[2]? ≠ some "end_time"

/-- The record loop of `readQueries` (`for line := 1; ; line++`): `line`
counts the records returned by the CSV reader, starting at 1 for the first
data record; `fpr` is the field count fixed by the header record.  Returns
the queries sent on the output channel and the error returned, or `none`
for a panic inside `newQuery`. -/
def readRows (fpr : Nat) : Nat → List String → Option (List query × Option SrcError)
  | _, [] => some ([], none)
  | line, l :: rest =>
    if l = "" then readRows fpr line rest
    else
      let row := splitFields l
      if row.length ≠ fpr then some ([], some (SrcError.fieldCount fpr row.length))
      else
        match newQuery row with
        | none => none
        | some (Except.error e) => some ([], some (SrcError.row line e))
        | some (Except.ok q) =>
          match readRows fpr (line + 1) rest with
          | none => none
          | some (qs, err) => some (q :: qs, err)

/-- `readQueries` from main.go, over the list of input lines.  The result is
the list of queries sent downstream (the channel is closed in every case,
by `defer close(output)`) together with the returned error; `none` models a
panic. -/
def readQueries (lines : List String) : Option (List query × Option SrcError) :=
  match dropBlanks lines with
  | [] => some ([], some SrcError.eof)
  | h :: rest =>
    let header := splitFields h
    if headerBad header then some ([], some (SrcError.unknownFormat header))
    else readRows header.length 1 rest

/-! ## Execution stage

`executeQueries` from main.go, sequentialized: the input channel becomes the
list of queries the source stage sent, the output channel becomes the list of
results forwarded.  The prepared statement and the database are abstracted
into `db`; preparing the statement is assumed to succeed (its failure mode is
an external database error, out of scope of the claims below).  The first
component of the result is the sequence of queries actually issued against
the database, in order. -/

/-- `executeQueries`: issue each query in order; a database error stops the
stage and is returned; results of successful queries are forwarded. -/
def executeQueries (db : query → Except String queryResult) :
    List query → List query × List queryResult × Option String
  | [] => ([], [], none)
  | q :: rest =>
    match db q with
    | Except.error e => ([q], [], some e)
    | Except.ok r =>
      match executeQueries db rest with
      | (issued, results, err) => (q :: issued, r :: results, err)

/-! ## Aggregation stage -/

/-- Comparison used by `sort.Slice` in `calculateMedian`:
`results[i].queryDuration < results[j].queryDuration`.  We sort with the
reflexive closure so that Mathlib's sorting lemmas apply; any duration-sorted
reordering yields the same duration sequence, which is all the median
reads. -/
def durLE (a b : queryResult) : Prop := a.queryDuration ≤ b.queryDuration

instance : DecidableRel durLE := fun a b => Int.decLe a.queryDuration b.queryDuration

/-- `calculateMedian` from main.go: sort the buffered results by duration
ascending; even count takes the truncating average of the two middle values
(`Int.tdiv` is Go's `int64` division, truncation toward zero), odd count
takes the middle value.  `none` models the index-out-of-range panic on an
empty slice (Go indexes `results[-1]`). -/
def calculateMedian (results : List queryResult) : Option Int :=
  let sorted := List.insertionSort durLE results
  let count := sorted.length
  if count % 2 = 0 then
    match sorted[count / 2 - 1]?, sorted[count / 2]? with
    | some a, some b => some (Int.tdiv (a.queryDuration + b.queryDuration) 2)
    | _, _ => none
  else (sorted[count / 2]?).map queryResult.queryDuration

/-- One iteration of the tally loop in `summariseResults`: append to the
buffer, bump the count, update min (with the `summary.min == 0` sentinel
test), max, and the running sum. -/
def summariseStep (acc : querySummary) (qr : queryResult) : querySummary :=
  { acc with
    count := acc.count + 1
    min := if qr.queryDuration < acc.min ∨ acc.min = 0 then qr.queryDuration else acc.min
    max := if qr.queryDuration > acc.max then qr.queryDuration else acc.max
    sum := acc.sum + qr.queryDuration }

/-- `summariseResults` from main.go, over the list of results received
before the input channel closed.  After the loop, Go computes
`mean = int64(sum) / int64(count)`: with `count = 0` this is an integer
divide-by-zero, a runtime panic, modelled as `none` (on the same path
`calculateMedian` would then index `results[-1]`).  The Go function's error
result is always `nil`, so no error component appears here. -/
def summariseResults (input : List queryResult) : Option querySummary :=
  let s := input.foldl summariseStep ⟨0, 0, 0, 0, 0, 0⟩
  if s.count = 0 then none
  else
    (calculateMedian input).map fun m =>
      { s with mean := Int.tdiv s.sum (Int.ofNat s.count), median := m }

/-! ## Pipeline coordinator

`run` from main.go, sequentialized.  The real coordinator runs the three
stages concurrently under `errgroup.WithContext`; this model composes them
in pipeline order, which is exact whenever at most one stage fails (the only
situations the theorems below use): the source's output list is what the
execution stage consumes, the execution stage's output list is what the
aggregation stage consumes, and `group.Wait()` returns the error of the one
failing stage.  A panic in any stage goroutine crashes the process before
`run` can return — `runOutcome.panicked`.  On an error return Go also hands
back the current value of the `summary` variable; callers discard it, and we
record only the error. -/

/-- The error `run` returns: the source stage's error or the execution
stage's database error (the aggregation stage never returns one). -/
inductive runError where
  | src (e : SrcError)
  | exec (msg : String)
deriving DecidableEq, Repr

/-- Result of a whole run. -/
inductive runOutcome where
  /-- a stage panicked; the process dies without returning from `run` -/
  | panicked
  /-- `run` returned this non-nil first error -/
  | failed (e : runError)
  /-- `run` returned this summary and a nil error -/
  | ok (s : querySummary)
deriving DecidableEq, Repr

/-- Sequential model of `run`: wire the three stages and report the first
error, the aggregation stage's summary when no stage failed, or a panic. -/
def run (lines : List String) (db : query → Except String queryResult) : runOutcome :=
  match readQueries lines with
  | none => runOutcome.panicked
  | some (qs, srcErr) =>
    match executeQueries db qs with
    | (_, results, execErr) =>
      match summariseResults results with
      | none => runOutcome.panicked
      | some s =>
        match srcErr with
        | some e => runOutcome.failed (runError.src e)
        | none =>
          match execErr with
          | some m => runOutcome.failed (runError.exec m)
          | none => runOutcome.ok s

/-! ## Spec-side definitions

These definitions follow the specification's words, to be compared with the
code-derived definitions above. -/

/-- Modelled from the spec (§4.4): sort the buffered latencies ascending;
if the count is even the median is the average of the two middle values,
if odd the single middle value. -/
def specMedian (l : List Int) : Int :=
  let s := List.insertionSort (fun a b => a ≤ b) l
  let n := s.length
  if n % 2 = 0 then Int.tdiv ((s[n / 2 - 1]?).getD 0 + (s[n / 2]?).getD 0) 2
  else (s[n / 2]?).getD 0

/-- Modelled from the spec (§8): the sequence of subjects of the input
file's data records, in file order — every non-blank line after the header
line contributes its first comma-separated field. -/
def inputSubjects (lines : List String) : List String :=
  match lines.filter (fun l => l ≠ "") with
  | [] => []
  | _ :: dataLines => dataLines.map (fun l => (splitFields l).headD "")

/-- Modelled from the spec: the true minimum of a latency sequence (0 for
the empty sequence, which the claims exclude). -/
def listMin : List Int → Int
  | [] => 0
  | x :: xs => xs.foldl min x

/-- Modelled from the spec: the true maximum of a latency sequence. -/
def listMax : List Int → Int
  | [] => 0
  | x :: xs => xs.foldl max x

/-! ## Concrete fixtures used by witnesses and counterexamples -/

/-- `n` milliseconds as a `time.Duration` (nanosecond) value. -/
def msec (n : Int) : Int := n * 1000000

/-- A database stub whose every query succeeds instantly. -/
def dbAllOk : query → Except String queryResult := fun _ => Except.ok ⟨0.0, 0.0, 0⟩

/-- Synthetic outcomes with latencies 10ms, 20ms, 30ms, 40ms. -/
def exEven : List queryResult :=
  [⟨0.0, 0.0, msec 10⟩, ⟨0.0, 0.0, msec 20⟩, ⟨0.0, 0.0, msec 30⟩, ⟨0.0, 0.0, msec 40⟩]

/-- Synthetic outcomes with latencies 5ms, 15ms, 25ms. -/
def exOdd : List queryResult :=
  [⟨0.0, 0.0, msec 5⟩, ⟨0.0, 0.0, msec 15⟩, ⟨0.0, 0.0, msec 25⟩]

/-- Synthetic outcomes with nonnegative latencies 0ms and 5ms. -/
def exWithZero : List queryResult := [⟨0.0, 0.0, 0⟩, ⟨0.0, 0.0, msec 5⟩]

/-! ## Claims about error behaviour of the aggregation stage and the run -/

/-- Claim C1: the claim says a run whose input has a valid header and zero
data records reports `EmptyResultError` instead of succeeding.  The code has
no such error: after consuming an empty outcome sequence,
`summariseResults` computes `int64(sum) / int64(count)` with `count = 0`,
an integer divide-by-zero — a runtime panic (modelled as `none`), not an
`EmptyResultError` and not a summary. -/
theorem summariseResults_zero_outcomes_panics : summariseResults [] = none := rfl

/-- Claim C2: the claim says the coordinator's first-error-wins join makes
the run's result exactly the first error encountered.  On an input whose
only line is the malformed header `hostname,start_time`, the source stage
errors before any outcome is produced, the cancelled aggregation stage then
divides by zero on `count = 0`, and the process panics instead of returning
that first error. -/
theorem run_malformed_header_panics :
    run ["hostname,start_time"] dbAllOk = runOutcome.panicked := rfl

/-- Claim C3: the claim says a run in which a stage faults returns a single
error describing the first fault.  On a valid header followed by one record
with an empty hostname, the source stage faults before any outcome exists;
the aggregation stage, unwinding with zero outcomes, divides by zero and the
process panics — no error is ever returned. -/
theorem run_early_fault_panics :
    run ["hostname,start_time,end_time", ",2017-01-01 08:59:22,2017-01-01 09:59:22"]
      dbAllOk = runOutcome.panicked := rfl

/-- Claim C4: the claim says a `MalformedTimestamp` error identifies which
of the two timestamp fields failed to parse.  Both error sites in
`newQuery` use the label `"invalid start time"` (main.go:171 reuses the
start-field message for the end field), so a row whose end field is the
unparseable string and a row whose start field is the same unparseable
string produce the *identical* error value — the error cannot identify the
field. -/
theorem newQuery_end_field_error_mislabelled :
    newQuery ["host_000008", "2017-01-01 08:59:22", "oops"] =
      some (Except.error (ParseErr.invalidTime "invalid start time" "oops")) ∧
    newQuery ["host_000008", "oops", "2017-01-01 08:59:22"] =
      some (Except.error (ParseErr.invalidTime "invalid start time" "oops")) := by
  exact ⟨rfl, rfl⟩

/-! ## Header validation and source-stage safety -/

/-- The header check fires exactly on headers that are not the fixed
three-name list. -/
theorem headerBad_true_iff (h : List String) :
    headerBad h = true ↔ h ≠ ["hostname", "start_time", "end_time"] := by
  rcases h with _ | ⟨a, _ | ⟨b, _ | ⟨c, _ | ⟨d, t⟩⟩⟩⟩ <;> simp [headerBad] <;> tauto

/-- The header check passes exactly on the fixed three-name header. -/
theorem headerBad_false_iff (h : List String) :
    headerBad h = false ↔ h = ["hostname", "start_time", "end_time"] := by
  rw [← Bool.not_eq_true, headerBad_true_iff]; tauto

/-- `newQuery` never panics on a row of exactly three fields. -/
theorem newQuery_isSome_of_length_three (row : List String) (h : row.length = 3) :
    (newQuery row).isSome := by
  match row, h with
  | [a, b, c], _ =>
    by_cases ha : a = ""
    · simp [newQuery, ha]
    · cases hb : parseGoTime b <;> cases hc : parseGoTime c <;>
        simp [newQuery, ha, hb, hc]

/-- The record loop never panics when the expected field count is 3: every
row it hands to `newQuery` has exactly 3 fields. -/
theorem readRows_isSome (n : Nat) (rest : List String) :
    (readRows 3 n rest).isSome := by
  induction rest generalizing n with
  | nil => simp [readRows]
  | cons l rest ih =>
    rw [readRows]
    by_cases hl : l = ""
    · simpa [hl] using ih n
    · rw [if_neg hl]
      by_cases hlen : (splitFields l).length ≠ 3
      · simp [hlen]
      · have h3 : (splitFields l).length = 3 := by omega
        have hq := newQuery_isSome_of_length_three _ h3
        cases hqv : newQuery (splitFields l) with
        | none => rw [hqv] at hq; simp at hq
        | some v =>
          cases v with
          | error e => simp [hl, hlen, hqv]
          | ok q =>
            have hr := ih (n + 1)
            cases hrv : readRows 3 (n + 1) rest with
            | none => rw [hrv] at hr; simp at hr
            | some p => simp [hl, hlen, hqv, hrv]

/-- Claim C9: `newQuery`'s unchecked indexing of positions 0, 1 and 2 is
never out of bounds on any input stream: the CSV reader fixes the expected
field count at the 3-column header and rejects rows of any other width
before `newQuery` runs, so the source stage never panics (`readQueries` is
always `some`, never the `none` that models an index-out-of-range
panic). -/
theorem readQueries_never_panics (lines : List String) : (readQueries lines).isSome := by
  rw [readQueries]
  cases hd : dropBlanks lines with
  | nil => simp
  | cons h rest =>
    by_cases hb : headerBad (splitFields h)
    · simp [hb]
    · have heq : splitFields h = ["hostname", "start_time", "end_time"] :=
        (headerBad_false_iff _).mp (by simpa using hb)
      have hlen : (splitFields h).length = 3 := by rw [heq]; rfl
      simp only [hb, if_false, Bool.false_eq_true]
      rw [hlen]
      exact readRows_isSome 1 rest

/-- Witness for claim C9 at a concrete input with a short data row. -/
theorem readQueries_never_panics_witness :
    (readQueries ["hostname,start_time,end_time", "hostname,"]).isSome :=
  readQueries_never_panics ["hostname,start_time,end_time", "hostname,"]

/-- The first line `dropBlanks` exposes is never blank. -/
theorem dropBlanks_cons_ne (lines : List String) (h : String) (rest : List String)
    (hd : dropBlanks lines = h :: rest) : h ≠ "" := by
  induction lines with
  | nil => simp [dropBlanks] at hd
  | cons l ls ih =>
    rw [dropBlanks] at hd
    by_cases hl : l = ""
    · rw [if_pos hl] at hd; exact ih hd
    · rw [if_neg hl] at hd
      cases hd; exact hl

/-- Claim C8: an input whose header record does not name exactly
`hostname`, `start_time`, `end_time` in order makes the source stage return
the `Unknown input format` error with zero descriptors forwarded. -/
theorem readQueries_bad_header (h : String) (rest : List String)
    (hne : h ≠ "") (hbad : splitFields h ≠ ["hostname", "start_time", "end_time"]) :
    readQueries (h :: rest) = some ([], some (SrcError.unknownFormat (splitFields h))) := by
  rw [readQueries]
  have hdrop : dropBlanks (h :: rest) = h :: rest := by rw [dropBlanks, if_neg hne]
  rw [hdrop]
  have hb : headerBad (splitFields h) = true := (headerBad_true_iff _).mpr hbad
  simp [hb]

/-- Witness for claim C8, at the spec's own example header
`subject,range-start`. -/
theorem readQueries_bad_header_witness :
    readQueries ["subject,range-start", "x,y,z"] =
      some ([], some (SrcError.unknownFormat (splitFields "subject,range-start"))) :=
  readQueries_bad_header "subject,range-start" ["x,y,z"] (by decide) (by decide)

/-! ## Claim C5: stopping at the first invalid record -/

/-- The query a well-formed input line parses to, if any. -/
def lineQuery (l : String) : Option query :=
  match newQuery (splitFields l) with
  | some (Except.ok q) => some q
  | _ => none

/-- A non-blank line of exactly three fields that `newQuery` accepts. -/
def IsGoodLine (l : String) : Prop :=
  l ≠ "" ∧ (splitFields l).length = 3 ∧ (lineQuery l).isSome

instance (l : String) : Decidable (IsGoodLine l) := by
  unfold IsGoodLine; infer_instance

/-- `lineQuery` succeeds exactly when `newQuery` accepts the line's
fields. -/
theorem lineQuery_eq_some (l : String) (q : query) (h : lineQuery l = some q) :
    newQuery (splitFields l) = some (Except.ok q) := by
  unfold lineQuery at h
  cases hv : newQuery (splitFields l) with
  | none => rw [hv] at h; simp at h
  | some v =>
    cases v with
    | error e => rw [hv] at h; simp at h
    | ok q2 => rw [hv] at h; simp at h; rw [h]

/-- The record loop skips blank lines silently (they are neither forwarded
nor counted), forwards every record before the first invalid one, reports
the invalid record under its 1-based record ordinal (counter starting at
`n`, counting only the non-blank lines), and its result does not depend on
the lines after the invalid record. -/
theorem readRows_stops (bad : String) (e : ParseErr)
    (hb0 : bad ≠ "") (hb1 : (splitFields bad).length = 3)
    (hbe : newQuery (splitFields bad) = some (Except.error e)) :
    ∀ (pre : List String) (suf : List String) (n : Nat),
      (∀ l ∈ pre, l = "" ∨ IsGoodLine l) →
      readRows 3 n (pre ++ bad :: suf) =
        some (pre.filterMap lineQuery,
          some (SrcError.row (n + (pre.filter (fun l => l ≠ "")).length) e)) := by
  intro pre
  induction pre with
  | nil =>
    intro suf n _
    rw [List.nil_append, readRows, if_neg hb0]
    simp [hb1, hbe]
  | cons l pre ih =>
    intro suf n hpre
    rcases hpre l (List.mem_cons_self l pre) with hl | hgood
    · subst hl
      rw [List.cons_append, readRows, if_pos rfl]
      rw [ih suf n (fun x hx => hpre x (List.mem_cons_of_mem _ hx))]
      have hlq : lineQuery "" = none := rfl
      simp [List.filterMap_cons, hlq, List.filter_cons]
    · obtain ⟨hl0, hl1, hl2⟩ := hgood
      obtain ⟨q, hq⟩ := Option.isSome_iff_exists.mp hl2
      have hnq : newQuery (splitFields l) = some (Except.ok q) := lineQuery_eq_some l q hq
      rw [List.cons_append, readRows, if_neg hl0]
      simp only [hl1, hnq, ne_eq, not_true_eq_false, if_false]
      rw [ih suf (n + 1) (fun x hx => hpre x (List.mem_cons_of_mem l hx))]
      simp [List.filterMap_cons, hq, List.filter_cons, hl0]
      omega

/-- Claim C5 counterexample: the claim says the error is tagged with the
failing record's 1-based *input line* number.  Here the record with the
empty hostname sits at 0-based index 2 of the input — its 1-based input
line number is 3 (the header occupies line 1) — yet the error is tagged
`2`: the code's counter counts data records returned by the CSV reader,
not input lines. -/
theorem readQueries_tag_is_not_input_line_number :
    readQueries ["hostname,start_time,end_time",
        "host_000008,2017-01-01 08:59:22,2017-01-01 09:59:22",
        ",2017-01-02 13:02:02,2017-01-02 14:02:02"] =
      some ([⟨"host_000008", ⟨2017, 1, 1, 8, 59, 22⟩, ⟨2017, 1, 1, 9, 59, 22⟩⟩],
        some (SrcError.row 2 ParseErr.emptyHostname)) ∧
    ["hostname,start_time,end_time",
        "host_000008,2017-01-01 08:59:22,2017-01-01 09:59:22",
        ",2017-01-02 13:02:02,2017-01-02 14:02:02"][2]? =
      some ",2017-01-02 13:02:02,2017-01-02 14:02:02" ∧
    (2 : Nat) ≠ 2 + 1 :=
  ⟨rfl, rfl, by decide⟩

/-- Claim C5 (amended): on the first invalid data record the source stage
stops reading — the result does not depend on the suffix after the bad
record, which is therefore never read — closes the downstream channel, and
returns an error tagged with the record's 1-based ordinal among the records
returned by the CSV reader: the header is not counted, and blank lines
interleaved among the preceding records are skipped silently — neither
forwarded nor counted; every well-formed record before the failing one has
already been forwarded downstream, in order. -/
theorem readQueries_stops_at_first_bad_record
    (pre : List String) (bad : String) (e : ParseErr) (suf : List String)
    (hpre : ∀ l ∈ pre, l = "" ∨ IsGoodLine l)
    (hb0 : bad ≠ "") (hb1 : (splitFields bad).length = 3)
    (hbe : newQuery (splitFields bad) = some (Except.error e)) :
    readQueries ("hostname,start_time,end_time" :: (pre ++ bad :: suf)) =
      some (pre.filterMap lineQuery,
        some (SrcError.row ((pre.filter (fun l => l ≠ "")).length + 1) e)) := by
  rw [readQueries]
  have hdrop : dropBlanks ("hostname,start_time,end_time" :: (pre ++ bad :: suf)) =
      "hostname,start_time,end_time" :: (pre ++ bad :: suf) := by
    rw [dropBlanks, if_neg (by decide)]
  rw [hdrop]
  have hsplit : splitFields "hostname,start_time,end_time" =
      ["hostname", "start_time", "end_time"] := by decide
  simp only [hsplit]
  have hgood : headerBad ["hostname", "start_time", "end_time"] = false := by decide
  simp only [hgood, Bool.false_eq_true, if_false, List.length_cons, List.length_nil]
  rw [show (0 + 1 + 1 + 1 : Nat) = 3 from rfl]
  rw [readRows_stops bad e hb0 hb1 hbe pre suf 1 hpre]
  rw [Nat.add_comm]

/-- Witness for claim C5: two good records with a blank line between them
precede the bad record; both are forwarded, the blank line is skipped and
not counted, the bad record is reported as record 3, and the junk after it
is never read. -/
theorem readQueries_stops_at_first_bad_record_witness :
    readQueries ["hostname,start_time,end_time",
        "host_000008,2017-01-01 08:59:22,2017-01-01 09:59:22",
        "",
        "host_000001,2017-01-02 13:02:02,2017-01-02 14:02:02",
        ",2017-01-02 13:02:02,2017-01-02 14:02:02",
        "junk,junk"] =
      some (["host_000008,2017-01-01 08:59:22,2017-01-01 09:59:22", "",
          "host_000001,2017-01-02 13:02:02,2017-01-02 14:02:02"].filterMap lineQuery,
        some (SrcError.row 3 ParseErr.emptyHostname)) :=
  readQueries_stops_at_first_bad_record
    ["host_000008,2017-01-01 08:59:22,2017-01-01 09:59:22", "",
     "host_000001,2017-01-02 13:02:02,2017-01-02 14:02:02"]
    ",2017-01-02 13:02:02,2017-01-02 14:02:02" ParseErr.emptyHostname ["junk,junk"]
    (by decide) (by decide) (by decide) rfl

/-! ## Claim C7: descriptor and subject order -/

theorem readQueries_eq_of_dropBlanks (lines : List String) (h : String) (rest : List String)
    (hd : dropBlanks lines = h :: rest) :
    readQueries lines =
      if headerBad (splitFields h) then some ([], some (SrcError.unknownFormat (splitFields h)))
      else readRows (splitFields h).length 1 rest := by
  rw [readQueries, hd]

theorem newQuery_ok_hostname3 (a b c : String) (q : query)
    (hq : newQuery [a, b, c] = some (Except.ok q)) : q.hostname = a := by
  by_cases ha : a = ""
  · simp [newQuery, ha] at hq
  · cases hb : parseGoTime b with
    | none => simp [newQuery, ha, hb] at hq
    | some t1 =>
      cases hc : parseGoTime c with
      | none => simp [newQuery, ha, hb, hc] at hq
      | some t2 =>
        simp [newQuery, ha, hb, hc] at hq
        rw [← hq]

theorem executeQueries_issues_all (db : query → Except String queryResult)
    (hdb : ∀ q, ∃ r, db q = Except.ok r) :
    ∀ qs : List query, (executeQueries db qs).1 = qs := by
  intro qs
  induction qs with
  | nil => rfl
  | cons q rest ih =>
    obtain ⟨r, hr⟩ := hdb q
    rw [executeQueries, hr]
    cases he : executeQueries db rest with
    | mk issued p =>
      simp only []
      rw [← ih, he]

theorem readRows_subjects :
    ∀ (rest : List String) (n : Nat) (qs : List query),
      readRows 3 n rest = some (qs, none) →
      qs.map query.hostname =
        (rest.filter (fun l => l ≠ "")).map (fun l => (splitFields l).headD "") := by
  intro rest
  induction rest with
  | nil =>
    intro n qs h
    rw [readRows] at h
    simp at h
    rw [h]
    rfl
  | cons l rest ih =>
    intro n qs h
    rw [readRows] at h
    by_cases hl : l = ""
    · rw [if_pos hl] at h
      have hrec := ih n qs h
      simp only [List.filter_cons, hl]
      simpa using hrec
    · rw [if_neg hl] at h
      by_cases hlen : (splitFields l).length ≠ 3
      · rw [if_pos hlen] at h
        simp at h
      · rw [if_neg hlen] at h
        have h3 : (splitFields l).length = 3 := by omega
        obtain ⟨a, b, c, habc⟩ := List.length_eq_three.mp h3
        cases hqv : newQuery (splitFields l) with
        | none => rw [hqv] at h; simp at h
        | some v =>
          rw [hqv] at h
          cases v with
          | error e => simp at h
          | ok q =>
            cases hrv : readRows 3 (n + 1) rest with
            | none => rw [hrv] at h; simp at h
            | some p =>
              rw [hrv] at h
              cases p with
              | mk qs2 err =>
                simp only [Option.some.injEq, Prod.mk.injEq] at h
                obtain ⟨hqs, herr⟩ := h
                subst herr
                rw [← hqs]
                have hrec := ih (n + 1) qs2 hrv
                have hhost : q.hostname = a := by
                  rw [habc] at hqv
                  exact newQuery_ok_hostname3 a b c q hqv
                have hhead : (splitFields l).head?.getD "" = a := by rw [habc]; rfl
                simp only [List.map_cons, List.filter_cons]
                simp [hl, hrec, hhost, hhead]

theorem filter_eq_filter_dropBlanks (lines : List String) :
    lines.filter (fun l => l ≠ "") = (dropBlanks lines).filter (fun l => l ≠ "") := by
  induction lines with
  | nil => rfl
  | cons l rest ih =>
    rw [dropBlanks]
    by_cases hl : l = ""
    · rw [if_pos hl, List.filter_cons]
      simp only [hl]
      simpa using ih
    · rw [if_neg hl]

theorem inputSubjects_of_dropBlanks (lines : List String) (h : String) (rest : List String)
    (hd : dropBlanks lines = h :: rest) :
    inputSubjects lines =
      (rest.filter (fun l => l ≠ "")).map (fun l => (splitFields l).headD "") := by
  have hne : h ≠ "" := dropBlanks_cons_ne lines h rest hd
  have hf : lines.filter (fun l => l ≠ "") = h :: rest.filter (fun l => l ≠ "") := by
    rw [filter_eq_filter_dropBlanks lines, hd, List.filter_cons]
    simp [hne]
  rw [inputSubjects, hf]

theorem pipeline_preserves_subject_order (lines : List String) (qs : List query)
    (db : query → Except String queryResult)
    (hsrc : readQueries lines = some (qs, none))
    (hdb : ∀ q, ∃ r, db q = Except.ok r) :
    (executeQueries db qs).1.map query.hostname = inputSubjects lines := by
  rw [executeQueries_issues_all db hdb qs]
  cases hd : dropBlanks lines with
  | nil => rw [readQueries, hd] at hsrc; simp at hsrc
  | cons h rest =>
    rw [readQueries_eq_of_dropBlanks lines h rest hd] at hsrc
    by_cases hb : headerBad (splitFields h)
    · rw [if_pos hb] at hsrc; simp at hsrc
    · rw [if_neg hb] at hsrc
      have heq : splitFields h = ["hostname", "start_time", "end_time"] :=
        (headerBad_false_iff _).mp (by simpa using hb)
      have hlen3 : (splitFields h).length = 3 := by rw [heq]; rfl
      rw [hlen3] at hsrc
      have hsub := readRows_subjects rest 1 qs hsrc
      rw [inputSubjects_of_dropBlanks lines h rest hd]
      exact hsub

/-- Witness for claim C7: a two-record input; the subjects issued to the
database equal the input file's subject column, in order. -/
theorem pipeline_preserves_subject_order_witness :
    (executeQueries dbAllOk
        [⟨"host_000008", ⟨2017, 1, 1, 8, 59, 22⟩, ⟨2017, 1, 1, 9, 59, 22⟩⟩,
         ⟨"host_000001", ⟨2017, 1, 2, 13, 2, 2⟩, ⟨2017, 1, 2, 14, 2, 2⟩⟩]).1.map query.hostname =
      inputSubjects ["hostname,start_time,end_time",
        "host_000008,2017-01-01 08:59:22,2017-01-01 09:59:22",
        "host_000001,2017-01-02 13:02:02,2017-01-02 14:02:02"] :=
  pipeline_preserves_subject_order _ _ dbAllOk rfl (fun _ => ⟨_, rfl⟩)

/-! ## Claim C6: the median computation -/

instance : IsTotal queryResult durLE :=
  ⟨fun a b => Int.le_total a.queryDuration b.queryDuration⟩

instance : IsTrans queryResult durLE :=
  ⟨fun _ _ _ hab hbc => le_trans hab hbc⟩

theorem map_dur_insertionSort (l : List queryResult) :
    (List.insertionSort durLE l).map queryResult.queryDuration =
      List.insertionSort (fun a b => a ≤ b) (l.map queryResult.queryDuration) := by
  apply List.eq_of_perm_of_sorted (r := fun a b : Int => a ≤ b)
  · exact ((List.perm_insertionSort durLE l).map _).trans
      ((List.perm_insertionSort _ _).symm)
  · have hs := List.sorted_insertionSort durLE l
    exact List.pairwise_map.mpr hs
  · exact List.sorted_insertionSort _ _

theorem calculateMedian_eq_specMedian (rs : List queryResult) (hne : rs ≠ []) :
    calculateMedian rs = some (specMedian (rs.map queryResult.queryDuration)) := by
  have hlen : (List.insertionSort durLE rs).length = rs.length :=
    (List.perm_insertionSort durLE rs).length_eq
  have hlen2 : (List.insertionSort (fun a b : Int => a ≤ b)
      (rs.map queryResult.queryDuration)).length = rs.length := by
    rw [← map_dur_insertionSort]
    simp [hlen]
  have hpos : 0 < rs.length := List.length_pos.mpr hne
  rw [calculateMedian, specMedian]
  simp only [← map_dur_insertionSort, hlen, List.length_map]
  by_cases hpar : rs.length % 2 = 0
  · have hge2 : 2 ≤ rs.length := by omega
    have hi1 : rs.length / 2 - 1 < (List.insertionSort durLE rs).length := by
      rw [hlen]; omega
    have hi2 : rs.length / 2 < (List.insertionSort durLE rs).length := by
      rw [hlen]; omega
    rw [if_pos hpar, if_pos hpar]
    rw [List.getElem?_eq_getElem hi1, List.getElem?_eq_getElem hi2]
    rw [List.getElem?_map, List.getElem?_map]
    rw [List.getElem?_eq_getElem hi1, List.getElem?_eq_getElem hi2]
    rfl
  · rw [if_neg hpar, if_neg hpar]
    have hi : rs.length / 2 < (List.insertionSort durLE rs).length := by
      rw [hlen]; omega
    rw [List.getElem?_eq_getElem hi, List.getElem?_map, List.getElem?_eq_getElem hi]
    rfl

/-- Claim C6: for every non-empty outcome sequence the final median sorts
the buffered latencies ascending and takes the average of the two middle
values when the count is even, the single middle value when odd
(`specMedian` is that computation, written from the spec's words); in
particular latencies 10ms, 20ms, 30ms, 40ms yield median 25ms and
latencies 5ms, 15ms, 25ms yield median 15ms. -/
theorem calculateMedian_sorts_and_averages_middle :
    (∀ rs : List queryResult, rs ≠ [] →
      calculateMedian rs = some (specMedian (rs.map queryResult.queryDuration))) ∧
    calculateMedian exEven = some (msec 25) ∧
    calculateMedian exOdd = some (msec 15) :=
  ⟨calculateMedian_eq_specMedian, by decide, by decide⟩

/-- Witness for claim C6, at the spec's even-count example. -/
theorem calculateMedian_sorts_and_averages_middle_witness :
    calculateMedian exEven = some (specMedian (exEven.map queryResult.queryDuration)) :=
  calculateMedian_sorts_and_averages_middle.1 exEven (List.cons_ne_nil _ _)

/-! ## Claim C10: the running min/max/sum of the tally loop -/

/-- The min update of the tally loop, on the min field alone:
`if qr.queryDuration < summary.min || summary.min == 0`. -/
def minStep (m x : Int) : Int := if x < m ∨ m = 0 then x else m

/-- The max update of the tally loop, on the max field alone. -/
def maxStep (m x : Int) : Int := if x > m then x else m

theorem foldl_summariseStep_count (rs : List queryResult) :
    ∀ acc : querySummary, (rs.foldl summariseStep acc).count = acc.count + rs.length := by
  induction rs with
  | nil => intro acc; simp
  | cons r rs ih =>
    intro acc
    rw [List.foldl_cons, ih]
    simp [summariseStep]
    omega

theorem foldl_summariseStep_sum (rs : List queryResult) :
    ∀ acc : querySummary,
      (rs.foldl summariseStep acc).sum =
        (rs.map queryResult.queryDuration).foldl (· + ·) acc.sum := by
  induction rs with
  | nil => intro acc; simp
  | cons r rs ih =>
    intro acc
    rw [List.foldl_cons, ih, List.map_cons, List.foldl_cons]
    rfl

theorem foldl_summariseStep_max (rs : List queryResult) :
    ∀ acc : querySummary,
      (rs.foldl summariseStep acc).max =
        (rs.map queryResult.queryDuration).foldl maxStep acc.max := by
  induction rs with
  | nil => intro acc; simp
  | cons r rs ih =>
    intro acc
    rw [List.foldl_cons, ih, List.map_cons, List.foldl_cons]
    rfl

theorem foldl_summariseStep_min (rs : List queryResult) :
    ∀ acc : querySummary,
      (rs.foldl summariseStep acc).min =
        (rs.map queryResult.queryDuration).foldl minStep acc.min := by
  induction rs with
  | nil => intro acc; simp
  | cons r rs ih =>
    intro acc
    rw [List.foldl_cons, ih, List.map_cons, List.foldl_cons]
    rfl

theorem foldl_maxStep_eq_max (xs : List Int) :
    ∀ m : Int, xs.foldl maxStep m = xs.foldl max m := by
  induction xs with
  | nil => intro m; rfl
  | cons x xs ih =>
    intro m
    rw [List.foldl_cons, List.foldl_cons, ih]
    have : maxStep m x = max m x := by
      by_cases h : x > m
      · simp [maxStep, h, max_eq_right h.le]
      · simp [maxStep, h, max_eq_left (le_of_not_lt h)]
    rw [this]

theorem foldl_max_nonneg_eq_listMax (x : Int) (xs : List Int) (hx : 0 ≤ x) :
    (x :: xs).foldl max 0 = listMax (x :: xs) := by
  rw [List.foldl_cons, max_eq_right hx, listMax]

theorem foldl_minStep_pos (xs : List Int) :
    ∀ m : Int, 0 < m → (∀ x ∈ xs, 0 < x) →
      xs.foldl minStep m = xs.foldl min m ∧ 0 < xs.foldl min m := by
  induction xs with
  | nil => intro m hm _; exact ⟨rfl, hm⟩
  | cons x xs ih =>
    intro m hm hxs
    have hx : 0 < x := hxs x (List.mem_cons_self x xs)
    have hstep : minStep m x = min m x := by
      by_cases h : x < m
      · simp [minStep, h, min_eq_right h.le]
      · have hne : ¬(x < m ∨ m = 0) := by
          push_neg
          exact ⟨le_of_not_lt h, by omega⟩
        simp [minStep, hne, min_eq_left (le_of_not_lt h)]
    have hrec := ih (min m x) (lt_min hm hx) (fun y hy => hxs y (List.mem_cons_of_mem x hy))
    rw [List.foldl_cons, List.foldl_cons, hstep]
    exact hrec

theorem foldl_minStep_zero_pos (x : Int) (xs : List Int) (hx : 0 < x)
    (hxs : ∀ y ∈ xs, 0 < y) :
    (x :: xs).foldl minStep 0 = listMin (x :: xs) := by
  rw [List.foldl_cons]
  have h0 : minStep 0 x = x := by simp [minStep]
  rw [h0, listMin]
  exact (foldl_minStep_pos xs x hx hxs).1

theorem summariseResults_eq_some (rs : List queryResult) (hne : rs ≠ []) :
    summariseResults rs = some
      { count := (rs.foldl summariseStep ⟨0, 0, 0, 0, 0, 0⟩).count
        sum := (rs.foldl summariseStep ⟨0, 0, 0, 0, 0, 0⟩).sum
        min := (rs.foldl summariseStep ⟨0, 0, 0, 0, 0, 0⟩).min
        max := (rs.foldl summariseStep ⟨0, 0, 0, 0, 0, 0⟩).max
        mean := Int.tdiv (rs.foldl summariseStep ⟨0, 0, 0, 0, 0, 0⟩).sum
          (Int.ofNat (rs.foldl summariseStep ⟨0, 0, 0, 0, 0, 0⟩).count)
        median := specMedian (rs.map queryResult.queryDuration) } := by
  have hcount : (rs.foldl summariseStep ⟨0, 0, 0, 0, 0, 0⟩).count = rs.length := by
    rw [foldl_summariseStep_count]
    simp
  have hc0 : ¬(rs.foldl summariseStep ⟨0, 0, 0, 0, 0, 0⟩).count = 0 := by
    rw [hcount]
    intro h
    exact hne (List.length_eq_zero.mp h)
  rw [summariseResults]
  simp only [hc0, if_false, calculateMedian_eq_specMedian rs hne]
  rfl

/-- Claim C10 (amended): the running sum and count are always the true
total and length; for outcome sequences of *nonnegative* latencies the
running max is the true maximum; and the sentinel-based running min is the
true minimum provided every latency is strictly *positive* — a latency of
exactly 0 re-arms the `min == 0` sentinel and the true minimum is lost
(see the counterexample). -/
theorem summarise_running_stats (rs : List queryResult) (hne : rs ≠ [])
    (hnn : ∀ x ∈ rs.map queryResult.queryDuration, 0 ≤ x) :
    ∃ s, summariseResults rs = some s ∧
      s.count = rs.length ∧
      s.sum = (rs.map queryResult.queryDuration).sum ∧
      s.max = listMax (rs.map queryResult.queryDuration) ∧
      ((∀ x ∈ rs.map queryResult.queryDuration, 0 < x) →
        s.min = listMin (rs.map queryResult.queryDuration)) := by
  refine ⟨_, summariseResults_eq_some rs hne, ?_, ?_, ?_, ?_⟩
  · rw [foldl_summariseStep_count]
    simp
  · rw [foldl_summariseStep_sum, List.sum_eq_foldl]
  · cases hm : rs.map queryResult.queryDuration with
    | nil =>
      exfalso
      exact hne (List.map_eq_nil_iff.mp hm)
    | cons x xs =>
      rw [foldl_summariseStep_max, hm, foldl_maxStep_eq_max]
      have hx : 0 ≤ x := by
        have := hnn x (by rw [hm]; exact List.mem_cons_self x xs)
        exact this
      exact foldl_max_nonneg_eq_listMax x xs hx
  · intro hpos
    cases hm : rs.map queryResult.queryDuration with
    | nil =>
      exfalso
      exact hne (List.map_eq_nil_iff.mp hm)
    | cons x xs =>
      rw [foldl_summariseStep_min, hm]
      have hx : 0 < x := hpos x (by rw [hm]; exact List.mem_cons_self x xs)
      have hxs : ∀ y ∈ xs, 0 < y := fun y hy =>
        hpos y (by rw [hm]; exact List.mem_cons_of_mem x hy)
      exact foldl_minStep_zero_pos x xs hx hxs

/-- Witness for claim C10, on the positive latencies 5ms, 15ms, 25ms. -/
theorem summarise_running_stats_witness :
    ∃ s, summariseResults exOdd = some s ∧
      s.count = exOdd.length ∧
      s.sum = (exOdd.map queryResult.queryDuration).sum ∧
      s.max = listMax (exOdd.map queryResult.queryDuration) ∧
      ((∀ x ∈ exOdd.map queryResult.queryDuration, 0 < x) →
        s.min = listMin (exOdd.map queryResult.queryDuration)) :=
  summarise_running_stats exOdd (List.cons_ne_nil _ _) (by decide)

/-- Claim C10 counterexample: with the nonnegative latencies 0ms and 5ms
the computed min is 5ms, but the true minimum latency is 0: after the first
outcome sets `min = 0`, the `min == 0` sentinel test makes the second
outcome overwrite it. -/
theorem summarise_min_sentinel_loses_zero :
    (∀ x ∈ exWithZero.map queryResult.queryDuration, 0 ≤ x) ∧
    summariseResults exWithZero =
      some ⟨2, msec 5, msec 5, msec 5, 2500000, 2500000⟩ ∧
    listMin (exWithZero.map queryResult.queryDuration) = 0 ∧
    msec 5 ≠ 0 :=
  ⟨by decide, rfl, by decide, by decide⟩

end Tsbench
